import Mathlib

/-!
Verification of the reverse-resolution key-construction and decoding
protocol ("ReverseKeyCodec") implemented by the chain-resolver scripts
(`src/deploy/ReverseResolveByChainId.ts`, `src/unnamed/part_000`,
`src/test/ChainResolver.blocksmith.ts`).

Byte strings are modelled as `List Nat` with each element below 256.
-/

namespace ChainResolver

/-! ## Hexadecimal helpers -/

/-- Lowercase hexadecimal digit for a value below 16, as produced by
`Buffer.toString('hex')`. -/
def hexChar (n : Nat) : Char :=
  if n < 10 then Char.ofNat (48 + n) else Char.ofNat (87 + n)

/-- Lowercase hex rendering of a byte sequence, two digits per byte, no
separator — the semantics of `Buffer.from(bytes).toString('hex')`. -/
def bytesToHexChars (b : List Nat) : List Char :=
  b.flatMap (fun x => [hexChar (x / 16), hexChar (x % 16)])

/-- Numeric value of one hex digit character (either case), `none` for a
non-hex character. -/
def hexDigitVal (c : Char) : Option Nat :=
  if 48 ≤ c.toNat ∧ c.toNat ≤ 57 then some (c.toNat - 48)
  else if 97 ≤ c.toNat ∧ c.toNat ≤ 102 then some (c.toNat - 87)
  else if 65 ≤ c.toNat ∧ c.toNat ≤ 70 then some (c.toNat - 55)
  else none

/-- Parse an even-length run of hex digit characters into bytes, two digits
per byte (the inverse direction of `bytesToHexChars`). -/
def hexCharsToBytes : List Char → Option (List Nat)
  | [] => some []
  | [_] => none
  | c1 :: c2 :: rest =>
    match hexDigitVal c1, hexDigitVal c2, hexCharsToBytes rest with
    | some v1, some v2, some bs => some ((v1 * 16 + v2) :: bs)
    | _, _, _ => none

/-! ## Key construction (`buildKey`) -/

/-- The two key-construction conventions found across the script variants. -/
inductive KeyVariant
  | RawByte
  | HexSuffix

/-- The fixed key tag `"chain-name:"` (11 ASCII characters). -/
def keyTag : String := "chain-name:"

/-- `buildKey` from the scripts.
`HexSuffix` is `'chain-name:' + Buffer.from(chainIdBytes).toString('hex')`
(`src/deploy/ReverseResolveByChainId.ts` line 55); `RawByte` is
`Buffer.concat([Buffer.from('chain-name:','utf8'), Buffer.from(bytes)]).toString('latin1')`
(`src/unnamed/part_000` lines 55-58, `src/test/ChainResolver.blocksmith.ts`
lines 91-94): each byte becomes the character with that code point. -/
def buildKey (b : List Nat) : KeyVariant → String
  | .RawByte => keyTag ++ String.mk (b.map Char.ofNat)
  | .HexSuffix => keyTag ++ String.mk (bytesToHexChars b)

/-! ## Chain-identifier derivation (`chainIdBytes`) -/

/-- Minimal big-endian byte expansion, fuel-indexed so that it reduces by
iota in the kernel; `beBytesGo n n` is the digit list of `n` in base 256. -/
def beBytesGo : Nat → Nat → List Nat
  | 0, _ => []
  | fuel + 1, n => if n = 0 then [] else beBytesGo fuel (n / 256) ++ [n % 256]

/-- Minimal-byte-length big-endian encoding of a natural number, as the
`hexlify(BigInt(input))` step of the scripts produces (zero encodes as the
single byte `0x00`). -/
def minimalBytes (n : Nat) : List Nat :=
  if n = 0 then [0] else beBytesGo n n

/-- Big-endian numeric value of a hex digit string. -/
def hexCharsVal : List Char → Option Nat
  | [] => some 0
  | c :: rest =>
    match hexDigitVal c, hexCharsVal rest with
    | some v, some acc => some (acc + v * 16 ^ rest.length)
    | _, _ => none

/-- Decimal numeric value of a digit string, `none` when a character is not
a decimal digit or the string is empty. -/
def decCharsVal : List Char → Option Nat
  | [] => none
  | cs => go cs 0
where
  go : List Char → Nat → Option Nat
    | [], acc => some acc
    | c :: rest, acc =>
      if 48 ≤ c.toNat ∧ c.toNat ≤ 57 then go rest (acc * 10 + (c.toNat - 48))
      else none

/-- Modelled from the spec: the chain-identifier derivation of
`src/deploy/ReverseResolveByChainId.ts` lines 42-48 (identically
`src/unnamed/part_000`); the helpers `isHexString`/`hexlify`/`getBytes`
belong to the external `ethers` library and are modelled from the spec's
words: a `0x`-hex input denotes its bytes (an odd-length hex input is read
by its big-endian numeric value, so `0xa` is the byte `0x0a`); a decimal
input is converted to its minimal-byte-length big-endian encoding; any
other input is `MalformedIdentifierInput` (`none`). -/
def chainIdBytes (s : String) : Option (List Nat) :=
  match s.data with
  | '0' :: 'x' :: rest =>
    if rest.length % 2 = 0 then hexCharsToBytes rest
    else hexCharsToBytes ('0' :: rest)
  | cs => (decCharsVal cs).map minimalBytes

/-! ## UTF-8 codec

Models the byte-level string codec used by the scripts' external
collaborators: `toUtf8Bytes`/implicit encoding on the way in, the strict
`toUtf8String` used inside the ABI string decoder (it rejects malformed
bytes), and the lossy `Buffer.toString('utf8')` used by the raw fallback
(it substitutes U+FFFD for malformed bytes and never fails). -/

/-- UTF-8 bytes of one character. -/
def utf8EncodeChar (c : Char) : List Nat :=
  let n := c.toNat
  if n < 0x80 then [n]
  else if n < 0x800 then [0xc0 + n / 64, 0x80 + n % 64]
  else if n < 0x10000 then
    [0xe0 + n / 4096, 0x80 + n / 64 % 64, 0x80 + n % 64]
  else
    [0xf0 + n / 262144, 0x80 + n / 4096 % 64, 0x80 + n / 64 % 64, 0x80 + n % 64]

/-- UTF-8 bytes of a string. -/
def utf8Encode (s : String) : List Nat :=
  s.data.flatMap utf8EncodeChar

/-- Is `b` a UTF-8 continuation byte (`10xxxxxx`)? -/
def isCont (b : Nat) : Bool := 0x80 ≤ b ∧ b < 0xc0

/-- Strict UTF-8 decoding, fuel-indexed (call with `fuel = l.length`).
Rejects stray continuation bytes, truncated sequences, overlong encodings,
surrogates and out-of-range code points, as the strict `toUtf8String` of
the ABI library does. -/
def utf8DecodeGo : Nat → List Nat → Option (List Char)
  | _, [] => some []
  | 0, _ :: _ => none
  | fuel + 1, b0 :: rest =>
    if b0 < 0x80 then
      (utf8DecodeGo fuel rest).map (Char.ofNat b0 :: ·)
    else if b0 < 0xc0 then none
    else if b0 < 0xe0 then
      match rest with
      | b1 :: rest2 =>
        if isCont b1 then
          let c := (b0 - 0xc0) * 64 + (b1 - 0x80)
          if c < 0x80 then none
          else (utf8DecodeGo fuel rest2).map (Char.ofNat c :: ·)
        else none
      | [] => none
    else if b0 < 0xf0 then
      match rest with
      | b1 :: b2 :: rest3 =>
        if isCont b1 ∧ isCont b2 then
          let c := (b0 - 0xe0) * 4096 + (b1 - 0x80) * 64 + (b2 - 0x80)
          if c < 0x800 then none
          else if 0xd800 ≤ c ∧ c < 0xe000 then none
          else (utf8DecodeGo fuel rest3).map (Char.ofNat c :: ·)
        else none
      | _ => none
    else if b0 < 0xf8 then
      match rest with
      | b1 :: b2 :: b3 :: rest4 =>
        if isCont b1 ∧ isCont b2 ∧ isCont b3 then
          let c := (b0 - 0xf0) * 262144 + (b1 - 0x80) * 4096 +
            (b2 - 0x80) * 64 + (b3 - 0x80)
          if c < 0x10000 then none
          else if 0x110000 ≤ c then none
          else (utf8DecodeGo fuel rest4).map (Char.ofNat c :: ·)
        else none
      | _ => none
    else none

/-- Strict UTF-8 decoding of a byte sequence. -/
def utf8Decode (l : List Nat) : Option (List Char) :=
  utf8DecodeGo l.length l

/-- Modelled from the spec: the lossy raw-UTF-8 text decode of
`Buffer.toString('utf8')` used by the fallback branch — malformed input
yields the replacement character U+FFFD instead of an error. -/
def utf8LossyGo : Nat → List Nat → List Char
  | _, [] => []
  | 0, _ :: _ => []
  | fuel + 1, b0 :: rest =>
    if b0 < 0x80 then Char.ofNat b0 :: utf8LossyGo fuel rest
    else if b0 < 0xc0 then Char.ofNat 0xfffd :: utf8LossyGo fuel rest
    else if b0 < 0xe0 then
      match rest with
      | b1 :: rest2 =>
        if isCont b1 then
          let c := (b0 - 0xc0) * 64 + (b1 - 0x80)
          if c < 0x80 then Char.ofNat 0xfffd :: utf8LossyGo fuel rest2
          else Char.ofNat c :: utf8LossyGo fuel rest2
        else Char.ofNat 0xfffd :: utf8LossyGo fuel rest
      | [] => [Char.ofNat 0xfffd]
    else if b0 < 0xf0 then
      match rest with
      | b1 :: b2 :: rest3 =>
        if isCont b1 ∧ isCont b2 then
          let c := (b0 - 0xe0) * 4096 + (b1 - 0x80) * 64 + (b2 - 0x80)
          if c < 0x800 ∨ (0xd800 ≤ c ∧ c < 0xe000) then
            Char.ofNat 0xfffd :: utf8LossyGo fuel rest3
          else Char.ofNat c :: utf8LossyGo fuel rest3
        else Char.ofNat 0xfffd :: utf8LossyGo fuel rest
      | _ => [Char.ofNat 0xfffd]
    else if b0 < 0xf8 then
      match rest with
      | b1 :: b2 :: b3 :: rest4 =>
        if isCont b1 ∧ isCont b2 ∧ isCont b3 then
          let c := (b0 - 0xf0) * 262144 + (b1 - 0x80) * 4096 +
            (b2 - 0x80) * 64 + (b3 - 0x80)
          if c < 0x10000 ∨ 0x110000 ≤ c then
            Char.ofNat 0xfffd :: utf8LossyGo fuel rest4
          else Char.ofNat c :: utf8LossyGo fuel rest4
        else Char.ofNat 0xfffd :: utf8LossyGo fuel rest
      | _ => [Char.ofNat 0xfffd]
    else Char.ofNat 0xfffd :: utf8LossyGo fuel rest

/-- Lossy raw-UTF-8 decode of a whole byte sequence into a string. -/
def utf8LossyStr (l : List Nat) : String :=
  String.mk (utf8LossyGo l.length l)

/-! ## ABI word-level codec

Models the external ABI library's strict default coder for the value
shapes the scripts use: a single dynamic `bytes`/`string` return value
(offset word, length word, word-aligned payload) and the two-argument
`(bytes32,string)` call payload. -/

/-- Big-endian fixed-width byte rendering of a natural number (one ABI
word when `width = 32`). -/
def natToBE (n width : Nat) : List Nat :=
  (List.range width).map (fun i => n / 256 ^ (width - 1 - i) % 256)

/-- Big-endian numeric value of a byte sequence. -/
def beToNat (bs : List Nat) : Nat :=
  bs.foldl (fun acc b => acc * 256 + b) 0

/-- Read the 32-byte word at byte position `pos` as a number; `none` when
the data is too short (the coder's out-of-bounds error). -/
def readWord (b : List Nat) (pos : Nat) : Option Nat :=
  if pos + 32 ≤ b.length then some (beToNat ((b.drop pos).take 32)) else none

/-- Right-pad a byte sequence with zeros to a multiple of the 32-byte word
size. -/
def padTo32 (l : List Nat) : List Nat :=
  l ++ List.replicate ((32 - l.length % 32) % 32) 0

/-- ABI encoding of a single dynamic `bytes` value as a top-level result:
offset word (32), length word, word-aligned payload. -/
def abiEncodeBytes (bs : List Nat) : List Nat :=
  natToBE 32 32 ++ natToBE bs.length 32 ++ padTo32 bs

/-- ABI structured encoding of a single string value: its UTF-8 bytes,
length-prefixed and word-aligned. -/
def abiEncodeString (s : String) : List Nat :=
  abiEncodeBytes (utf8Encode s)

/-- Strict ABI decode of a single dynamic `bytes` value: read the offset
word, read the length word at that offset, and require the word-aligned
payload to lie within the data (the default coder's strict bound check);
`none` is the decode error the scripts catch. -/
def abiDecodeBytes (b : List Nat) : Option (List Nat) :=
  match readWord b 0 with
  | none => none
  | some off =>
    match readWord b off with
    | none => none
    | some len =>
      if off + 32 + (len + 31) / 32 * 32 ≤ b.length then
        some ((b.drop (off + 32)).take len)
      else none

/-- Strict ABI decode of a single string value
(`AbiCoder.defaultAbiCoder().decode(["string"], ...)` and
`decodeFunctionResult("text(bytes32,string)", ...)`): the `bytes` layer
followed by strict UTF-8 decoding. -/
def abiDecodeString (b : List Nat) : Option String :=
  match abiDecodeBytes b with
  | none => none
  | some bs =>
    match utf8Decode bs with
    | none => none
    | some cs => some (String.mk cs)

/-- The all-zero 32-byte node (`ZERO_NODE = "0x" + "0".repeat(64)`). -/
def zeroNode32 : List Nat := List.replicate 32 0

/-- ABI argument block of the two-argument `(bytes32,string)` call payload:
node word, offset word `0x40`, key length word, word-aligned key bytes. -/
def encodeCallArgs (node : List Nat) (key : String) : List Nat :=
  node ++ natToBE 0x40 32 ++ natToBE (utf8Encode key).length 32 ++
    padTo32 (utf8Encode key)

/-- A full call payload (`encodeFunctionData`): the external library's
4-byte keccak-based selector followed by the argument block. -/
def encodeDataCall (selector node : List Nat) (key : String) : List Nat :=
  selector ++ encodeCallArgs node key

/-! ## Data-result decoding (`decodeDataResult`) and display names -/

/-- The two-step decode policy applied to the bytes returned under the
`data` selector (`src/unnamed/part_000` lines 76-83): first try the ABI
structured-string decode; on its failure fall back to reading the whole
byte sequence as raw UTF-8 text. -/
def decodeDataResult (encoded : List Nat) : String :=
  match abiDecodeString encoded with
  | some s => s
  | none => utf8LossyStr encoded

/-- Did `decodeDataResult` take the step-2 fallback branch? (True exactly
when the structured decode of step 1 failed.) -/
def usedFallback (encoded : List Nat) : Bool :=
  (abiDecodeString encoded).isNone

/-- The decode chain as written in `src/deploy/ReverseResolveByChainId.ts`
lines 74-75: `AbiCoder.defaultAbiCoder().decode(["string"], encoded)`,
on failure `Buffer.from(hex, 'hex').toString('utf8')`. -/
def dataNameDeploy (encoded : List Nat) : String :=
  match abiDecodeString encoded with
  | some s => s
  | none => utf8LossyStr encoded

/-- The decode chain as written in `src/unnamed/part_000` lines 76-83:
preferred `abi.encode(string)` decode, fallback raw UTF-8 bytes. -/
def dataNamePart000 (encoded : List Nat) : String :=
  match abiDecodeString encoded with
  | some s => s
  | none => utf8LossyStr encoded

/-- The decode chain as written in `src/test/ChainResolver.blocksmith.ts`
lines 112-117. -/
def dataNameBlocksmith (encoded : List Nat) : String :=
  match abiDecodeString encoded with
  | some s => s
  | none => utf8LossyStr encoded

/-- `composeDisplayName`: the `name + '.cid.eth'` composition printed by
`src/unnamed/part_000` lines 69 and 85; no validation of `chainName`. -/
def composeDisplayName (chainName : String) : String :=
  chainName ++ ".cid.eth"

/-! ## Script-level resolution flows

The resolve/read calls go to the external resolver collaborator; a run is
modelled against a `Transport` giving each call's outcome.  A script run
yields its printed `(textName, dataName)` pair, or the fatal error message
it reports before exiting, together with the trace of external calls it
issued. -/

/-- One prepared answer per external call site: the `resolve` call carrying
the text-selector payload, the `resolve` call carrying the data-selector
payload, and the direct `chainName(bytes)` read. -/
structure Transport where
  textAnswer : Except String (List Nat)
  dataAnswer : Except String (List Nat)
  directAnswer : Except String String

/-- Tags for the external calls a script can issue. -/
inductive CallTag
  | textResolve
  | dataResolve
  | directRead
deriving DecidableEq

/-- Outcome of one script run: fatal error message (the script prints it
and exits nonzero) or the printed name pair, plus the external calls made,
in order. -/
structure RunResult where
  outcome : Except String (String × String)
  trace : List CallTag

/-- The resolution flow of `src/unnamed/part_000` lines 63-94: both
resolve calls and their decodes run inside one `try`; any failure there
reaches the outer `catch`, which reports the error message and exits.  The
trailing direct `chainName` read has its own `try {} catch {}` and cannot
fail the run. -/
def runPart000 (t : Transport) : RunResult :=
  match t.textAnswer with
  | .error m => ⟨.error m, [.textResolve]⟩
  | .ok tanswer =>
    match abiDecodeString tanswer with
    | none => ⟨.error "could not decode text result", [.textResolve]⟩
    | some textName =>
      match t.dataAnswer with
      | .error m => ⟨.error m, [.textResolve, .dataResolve]⟩
      | .ok danswer =>
        match abiDecodeBytes danswer with
        | none =>
          ⟨.error "could not decode data result", [.textResolve, .dataResolve]⟩
        | some encoded =>
          ⟨.ok (textName, decodeDataResult encoded),
            [.textResolve, .dataResolve, .directRead]⟩

/-- The resolution flow of `src/deploy/ReverseResolveByChainId.ts` lines
60-89: each selector's resolve-and-decode sits in its own `try {} catch {}`
with the name initialised to `''`, so a failure leaves the empty string and
the run still prints and succeeds. -/
def runDeploy (t : Transport) : RunResult :=
  let textName :=
    match t.textAnswer with
    | .error _ => ""
    | .ok tanswer =>
      match abiDecodeString tanswer with
      | none => ""
      | some s => s
  let dataName :=
    match t.dataAnswer with
    | .error _ => ""
    | .ok danswer =>
      match abiDecodeBytes danswer with
      | none => ""
      | some encoded => decodeDataResult encoded
  ⟨.ok (textName, dataName), [.textResolve, .dataResolve, .directRead]⟩

/-! ## Blocksmith test: final name choice -/

/-- `picked = textName || dataName || direct`
(`src/test/ChainResolver.blocksmith.ts` line 126): the first non-empty
string in the fixed priority order. -/
def picked (textName dataName direct : String) : String :=
  if textName = "" then (if dataName = "" then direct else dataName)
  else textName

/-- The test's final assertion (line 127): error unless the picked name
equals the registered label. -/
def finalAssert (textName dataName direct label : String) :
    Except String Unit :=
  if picked textName dataName direct = label then .ok ()
  else .error ("Unexpected reverse name: " ++ picked textName dataName direct)

/-- The test's text-selector name (lines 99-104): decode the answer,
keep `''` on decode error. -/
def testTextName (tanswer : List Nat) : String :=
  match abiDecodeString tanswer with
  | none => ""
  | some s => s

/-- The test's chain identifier `0x000000010001010a00`
(`src/test/ChainResolver.blocksmith.ts` lines 54-55). -/
def CHAIN_ID : List Nat := [0x00, 0x00, 0x00, 0x01, 0x00, 0x01, 0x01, 0x0a, 0x00]

/-- A transport on which the text-selector resolve call fails with message
`"boom"` while the data-selector call answers an ABI-wrapped `"op"`. -/
def failingTransport : Transport :=
  ⟨.error "boom", .ok (abiEncodeBytes (abiEncodeString "op")), .ok "op"⟩

/-! ## Helper lemmas -/

theorem hexChar_spec : ∀ n, n < 16 →
    hexDigitVal (hexChar n) = some n ∧ hexChar n ∈ ("0123456789abcdef").data := by
  decide

theorem bytesToHexChars_cons (x : Nat) (b : List Nat) :
    bytesToHexChars (x :: b) =
      hexChar (x / 16) :: hexChar (x % 16) :: bytesToHexChars b := rfl

theorem bytesToHexChars_length (b : List Nat) :
    (bytesToHexChars b).length = 2 * b.length := by
  induction b with
  | nil => rfl
  | cons x b ih => simp [bytesToHexChars_cons, ih]; omega

theorem hexCharsToBytes_bytesToHexChars (b : List Nat)
    (hb : ∀ x ∈ b, x < 256) :
    hexCharsToBytes (bytesToHexChars b) = some b := by
  induction b with
  | nil => rfl
  | cons x b ih =>
    have hx : x < 256 := hb x (by simp)
    have h1 := (hexChar_spec (x / 16) (by omega)).1
    have h2 := (hexChar_spec (x % 16) (by omega)).1
    have ih2 := ih (fun y hy => hb y (by simp [hy]))
    rw [bytesToHexChars_cons]
    simp only [hexCharsToBytes, h1, h2, ih2]
    have hxy : x / 16 * 16 + x % 16 = x := by omega
    rw [hxy]

theorem bytesToHexChars_mem (b : List Nat) (hb : ∀ x ∈ b, x < 256) :
    ∀ c ∈ bytesToHexChars b, c ∈ ("0123456789abcdef").data := by
  induction b with
  | nil => intro c hc; simp [bytesToHexChars] at hc
  | cons x b ih =>
    intro c hc
    have hx : x < 256 := hb x (by simp)
    rw [bytesToHexChars_cons, List.mem_cons, List.mem_cons] at hc
    rcases hc with h | h | h
    · exact h ▸ (hexChar_spec (x / 16) (by omega)).2
    · exact h ▸ (hexChar_spec (x % 16) (by omega)).2
    · exact ih (fun y hy => hb y (by simp [hy])) c h

theorem charRoundTrip (x : Nat) (h : x < 0xd800) :
    (Char.ofNat x).toNat = x := by
  have hv : Nat.isValidChar x := Or.inl h
  simp [Char.ofNat, hv, Char.ofNatAux, Char.toNat, UInt32.toNat,
    BitVec.toNat_ofNatLt]

theorem rawByteRecover (b : List Nat) (hb : ∀ x ∈ b, x < 256) :
    (b.map Char.ofNat).map Char.toNat = b := by
  induction b with
  | nil => rfl
  | cons x b ih =>
    have hx : x < 256 := hb x (by simp)
    simp only [List.map_cons, charRoundTrip x (by omega),
      ih (fun y hy => hb y (by simp [hy]))]

theorem keyData_hex (b : List Nat) :
    (buildKey b .HexSuffix).data = keyTag.data ++ bytesToHexChars b := by
  simp [buildKey, String.data_append]

theorem keyData_raw (b : List Nat) :
    (buildKey b .RawByte).data = keyTag.data ++ b.map Char.ofNat := by
  simp [buildKey, String.data_append]

theorem runPart000_trace_cases (t : Transport) :
    (runPart000 t).trace = [.textResolve] ∨
    (runPart000 t).trace = [.textResolve, .dataResolve] ∨
    (runPart000 t).trace = [.textResolve, .dataResolve, .directRead] := by
  unfold runPart000
  rcases t with ⟨ta, da, dir⟩
  cases ta with
  | error m => simp
  | ok a =>
    cases habi : abiDecodeString a with
    | none => simp [habi]
    | some s =>
      cases da with
      | error m => simp [habi]
      | ok d =>
        cases hbytes : abiDecodeBytes d with
        | none => simp [habi, hbytes]
        | some e => simp [habi, hbytes]

/-! ## Claim theorems -/

set_option maxRecDepth 1000000

/-- Claim C1: `decodeDataResult` applies a two-step policy in order: if the
ABI structured-string decode succeeds its value is returned, and exactly
when it fails the whole byte sequence is decoded as raw UTF-8 text; in
particular the non-ABI-wrapped raw UTF-8 bytes of `"testchain"` decode via
the fallback to exactly `"testchain"`. -/
theorem C1_decode_policy (b : List Nat) :
    (∀ s, abiDecodeString b = some s →
      decodeDataResult b = s ∧ usedFallback b = false) ∧
    (abiDecodeString b = none →
      decodeDataResult b = utf8LossyStr b ∧ usedFallback b = true) ∧
    abiDecodeString (utf8Encode "testchain") = none ∧
    decodeDataResult (utf8Encode "testchain") = "testchain" := by
  refine ⟨fun s h => ?_, fun h => ?_, by decide, by decide⟩
  · simp [decodeDataResult, usedFallback, h]
  · simp [decodeDataResult, usedFallback, h]

/-- Witness for C1 at the raw UTF-8 bytes of `"testchain"`. -/
theorem C1_decode_policy_witness :
    decodeDataResult (utf8Encode "testchain") =
      utf8LossyStr (utf8Encode "testchain") ∧
    usedFallback (utf8Encode "testchain") = true :=
  (C1_decode_policy (utf8Encode "testchain")).2.1 (by decide)

/-- Claim C2: for every byte sequence `b`, `buildKey b HexSuffix` is the
11-character literal `"chain-name:"` followed by the lowercase hex digits
of `b`, two digits per byte with no separator, so its length is
`11 + 2*len(b)`; the digits parse back to exactly `b`, and the empty
sequence yields the bare tag. -/
theorem C2_buildKey_hexSuffix (b : List Nat) (hb : ∀ x ∈ b, x < 256) :
    (buildKey b .HexSuffix).data = keyTag.data ++ bytesToHexChars b ∧
    (buildKey b .HexSuffix).length = 11 + 2 * b.length ∧
    (∀ c ∈ bytesToHexChars b, c ∈ ("0123456789abcdef").data) ∧
    hexCharsToBytes (bytesToHexChars b) = some b ∧
    buildKey ([] : List Nat) .HexSuffix = keyTag := by
  refine ⟨keyData_hex b, ?_, bytesToHexChars_mem b hb,
    hexCharsToBytes_bytesToHexChars b hb, by decide⟩
  have hlen : (buildKey b .HexSuffix).length =
      (buildKey b .HexSuffix).data.length := rfl
  rw [hlen, keyData_hex b]
  simp [bytesToHexChars_length]
  rfl

/-- Witness for C2 at the bytes `[0x00, 0x01, 0xab]`. -/
theorem C2_buildKey_hexSuffix_witness :
    (buildKey [0x00, 0x01, 0xab] .HexSuffix).length = 11 + 2 * 3 ∧
    hexCharsToBytes (bytesToHexChars [0x00, 0x01, 0xab]) =
      some [0x00, 0x01, 0xab] :=
  ⟨(C2_buildKey_hexSuffix [0x00, 0x01, 0xab] (by decide)).2.1,
    (C2_buildKey_hexSuffix [0x00, 0x01, 0xab] (by decide)).2.2.2.1⟩

/-- Claim C3: for every byte sequence `b` of bytes below 256,
`buildKey b RawByte` starts with the 11-byte literal `"chain-name:"` and
has length `11 + len(b)`; each byte maps 1:1 to one character with no
re-encoding (the bytes are recovered exactly from the character codes),
and the empty sequence is accepted, yielding the bare tag. -/
theorem C3_buildKey_rawByte (b : List Nat) (hb : ∀ x ∈ b, x < 256) :
    (buildKey b .RawByte).data = keyTag.data ++ b.map Char.ofNat ∧
    (buildKey b .RawByte).length = 11 + b.length ∧
    (buildKey b .RawByte).data.take 11 = keyTag.data ∧
    ((buildKey b .RawByte).data.drop 11).map Char.toNat = b ∧
    buildKey ([] : List Nat) .RawByte = keyTag := by
  have htag : keyTag.data.length = 11 := rfl
  refine ⟨keyData_raw b, ?_, ?_, ?_, by decide⟩
  · have hlen : (buildKey b .RawByte).length =
        (buildKey b .RawByte).data.length := rfl
    rw [hlen, keyData_raw b]
    simp
    rfl
  · rw [keyData_raw b, ← htag, List.take_left]
  · rw [keyData_raw b, ← htag, List.drop_left]
    exact rawByteRecover b hb

/-- Witness for C3 at the bytes `[0x00, 0xff, 0x0a]`. -/
theorem C3_buildKey_rawByte_witness :
    (buildKey [0x00, 0xff, 0x0a] .RawByte).length = 11 + 3 ∧
    ((buildKey [0x00, 0xff, 0x0a] .RawByte).data.drop 11).map Char.toNat =
      [0x00, 0xff, 0x0a] :=
  ⟨(C3_buildKey_rawByte [0x00, 0xff, 0x0a] (by decide)).2.1,
    (C3_buildKey_rawByte [0x00, 0xff, 0x0a] (by decide)).2.2.2.1⟩

/-- Claim C4: the chain identifier derived from the decimal input `"10"`
equals the one derived from the hex input `"0xa"`: both are the one-byte
sequence `0x0a`, the minimal-byte-length big-endian encoding of 10. -/
theorem C4_decimal_hex_agree :
    chainIdBytes "10" = some [0x0a] ∧
    chainIdBytes "0xa" = some [0x0a] ∧
    chainIdBytes "10" = chainIdBytes "0xa" ∧
    minimalBytes 10 = [0x0a] := by
  decide

/-- Claim C5 (amended): in `src/unnamed/part_000` every failure of a
resolve call is surfaced verbatim as a failed invocation, and neither
script ever issues the same external call twice (no retry); in
`src/deploy/ReverseResolveByChainId.ts`, however, a failing text-selector
resolve is caught locally and the name silently defaults to the empty
string while the invocation succeeds. -/
theorem C5_transport_failures :
    (∀ t m, t.textAnswer = .error m →
      (runPart000 t).outcome = .error m ∧
      (runPart000 t).trace = [.textResolve]) ∧
    (∀ t m a s, t.textAnswer = .ok a → abiDecodeString a = some s →
      t.dataAnswer = .error m → (runPart000 t).outcome = .error m) ∧
    (∀ t tag, (runPart000 t).trace.count tag ≤ 1 ∧
      (runDeploy t).trace.count tag ≤ 1) ∧
    (∀ t m, t.textAnswer = .error m →
      ∃ d, (runDeploy t).outcome = .ok ("", d)) := by
  refine ⟨?_, ?_, ?_, ?_⟩
  · intro t m h
    rcases t with ⟨ta, da, dir⟩
    cases ta with
    | error m2 =>
      cases h
      exact ⟨rfl, rfl⟩
    | ok a => cases h
  · intro t m a s h1 h2 h3
    rcases t with ⟨ta, da, dir⟩
    cases ta with
    | error m2 => cases h1
    | ok a2 =>
      cases h1
      cases da with
      | error m2 =>
        cases h3
        simp [runPart000, h2]
      | ok d => cases h3
  · intro t tag
    constructor
    · rcases runPart000_trace_cases t with h | h | h <;>
        rw [h] <;> cases tag <;> decide
    · have hdep : (runDeploy t).trace =
          [.textResolve, .dataResolve, .directRead] := rfl
      rw [hdep]
      cases tag <;> decide
  · intro t m h
    rcases t with ⟨ta, da, dir⟩
    cases ta with
    | error m2 =>
      cases da with
      | error m3 => exact ⟨"", rfl⟩
      | ok d =>
        cases hbytes : abiDecodeBytes d with
        | none => exact ⟨"", by simp [runDeploy, hbytes]⟩
        | some e => exact ⟨decodeDataResult e, by simp [runDeploy, hbytes]⟩
    | ok a => cases h

/-- Witness for C5 at `failingTransport`, whose text-selector call fails
with message `"boom"`. -/
theorem C5_transport_failures_witness :
    (runPart000 failingTransport).outcome = .error "boom" ∧
    (runPart000 failingTransport).trace = [.textResolve] :=
  C5_transport_failures.1 failingTransport "boom" rfl

/-- Counterexample to C5 as stated: on `failingTransport` the deploy
script's text-selector resolve call fails with `"boom"`, yet the run does
not surface the failure — it succeeds and prints the default empty string
in place of the text name. -/
theorem C5_transport_failures_counterexample :
    failingTransport.textAnswer = .error "boom" ∧
    (runDeploy failingTransport).outcome = .ok ("", "op") :=
  ⟨rfl, rfl⟩

/-- Claim C6: whenever the input bytes are a valid ABI structured string
encoding, step 1 of `decodeDataResult` succeeds with that string and the
step-2 raw-UTF-8 fallback branch is not invoked. -/
theorem C6_structured_first (b : List Nat) (s : String)
    (h : abiDecodeString b = some s) :
    decodeDataResult b = s ∧ usedFallback b = false := by
  simp [decodeDataResult, usedFallback, h]

/-- Witness for C6 at the ABI structured encoding of `"testname"`. -/
theorem C6_structured_first_witness :
    decodeDataResult (abiEncodeString "testname") = "testname" ∧
    usedFallback (abiEncodeString "testname") = false :=
  C6_structured_first (abiEncodeString "testname") "testname" (by decide)

/-- Claim C7: `composeDisplayName chainName` is exactly
`chainName ++ ".cid.eth"` with no validation;
`composeDisplayName "optimism" = "optimism.cid.eth"` and the degenerate
`composeDisplayName "" = ".cid.eth"`. -/
theorem C7_composeDisplayName :
    (∀ s, (composeDisplayName s).data = s.data ++ (".cid.eth").data) ∧
    composeDisplayName "optimism" = "optimism.cid.eth" ∧
    composeDisplayName "" = ".cid.eth" := by
  refine ⟨fun s => ?_, rfl, rfl⟩
  simp [composeDisplayName, String.data_append]

/-- Claim C8: round trip — the identifier bytes `0x000000010001010a00`
yield, via `HexSuffix`, the key `"chain-name:000000010001010a00"`; the
corresponding `data(bytes32,string)` call is the selector followed by the
128-byte argument block; and decoding a synthetic ABI structured-string
answer containing `"optimism"` (through the `bytes` result layer and then
`decodeDataResult`) yields exactly `"optimism"`. -/
theorem C8_roundTrip :
    buildKey CHAIN_ID .HexSuffix = "chain-name:000000010001010a00" ∧
    (∀ selector, (encodeDataCall selector zeroNode32
      (buildKey CHAIN_ID .HexSuffix)).length = selector.length + 128) ∧
    abiDecodeBytes (abiEncodeBytes (abiEncodeString "optimism")) =
      some (abiEncodeString "optimism") ∧
    decodeDataResult (abiEncodeString "optimism") = "optimism" := by
  refine ⟨by decide, fun selector => ?_, by decide, by decide⟩
  have hargs : (encodeCallArgs zeroNode32
      (buildKey CHAIN_ID .HexSuffix)).length = 128 := by decide
  simp [encodeDataCall, hargs]

/-- Claim C9: the three scripts implement the same data-result decode:
for every byte string returned under the `data` selector the decode chains
of `src/deploy/ReverseResolveByChainId.ts`, `src/unnamed/part_000` and
`src/test/ChainResolver.blocksmith.ts` produce the identical string. -/
theorem C9_decode_equivalence (b : List Nat) :
    dataNameDeploy b = dataNamePart000 b ∧
    dataNamePart000 b = dataNameBlocksmith b :=
  ⟨rfl, rfl⟩

/-- Claim C10: the blocksmith test picks the final reverse-resolved name
as the first non-empty string in the priority order text-selector result,
data-selector result, direct `chainName` read, and its final assertion
succeeds exactly when the picked name equals the registered label; a
text-selector decode error leaves the empty string. -/
theorem C10_picked_priority (textName dataName direct label : String) :
    (textName ≠ "" → picked textName dataName direct = textName) ∧
    (textName = "" → dataName ≠ "" →
      picked textName dataName direct = dataName) ∧
    (textName = "" → dataName = "" →
      picked textName dataName direct = direct) ∧
    (finalAssert textName dataName direct label = .ok () ↔
      picked textName dataName direct = label) ∧
    (∀ a, abiDecodeString a = none → testTextName a = "") := by
  refine ⟨fun h => ?_, fun h1 h2 => ?_, fun h1 h2 => ?_, ?_, fun a h => ?_⟩
  · simp [picked, h]
  · simp [picked, h1, h2]
  · simp [picked, h1, h2]
  · unfold finalAssert
    split
    · simp_all
    · simp_all
  · simp [testTextName, h]

/-- Witness for C10: with an empty text name, a data name `"opti"` and a
direct name `"direct"`, the picked name is `"opti"` and the final
assertion against the label `"opti"` succeeds. -/
theorem C10_picked_priority_witness :
    picked "" "opti" "direct" = "opti" ∧
    finalAssert "" "opti" "direct" "opti" = .ok () :=
  ⟨(C10_picked_priority "" "opti" "direct" "opti").2.1 rfl (by decide),
    ((C10_picked_priority "" "opti" "direct" "opti").2.2.2.1).mpr
      ((C10_picked_priority "" "opti" "direct" "opti").2.1 rfl (by decide))⟩

end ChainResolver
